import Mathlib

/-!
Shallow embedding of the keyring program's TLV state types
(`src/program/src/tlv.rs`, `src/program/src/state.rs`).

Bytes are modelled as `List Nat` (each element a `u8` value). Rust slice
indexing that can go out of bounds is modelled by `sliceFrom`, which returns
the `outOfBounds` error exactly where Rust would panic. All other fallible
operations return the corresponding `KeyringProgramError` variant.
-/

deriving instance DecidableEq for Except

namespace Keyring

/-- Errors of the keyring program (`src/program/src/error.rs`), together with
`outOfBounds`, which models a Rust out-of-bounds slice/index panic (not a
`ProgramError`, but a crash of the program). -/
inductive PErr where
  | invalidFormatForEntry
  | invalidFormatForKey
  | invalidFormatForConfig
  | invalidFormatForConfigEntry
  | keystoreEntryNotFound
  | outOfBounds
deriving DecidableEq, Repr

/-- Byte buffers: lists of `u8` values. -/
abbrev Bytes := List Nat

/-- The four bytes of `(n as u32).to_le_bytes()`: little-endian, truncating
modulo `2 ^ 32` exactly as the Rust cast does. -/
def u32leBytes (n : Nat) : Bytes :=
  [n % 256, n / 256 % 256, n / 65536 % 256, n / 16777216 % 256]

/-- `u32::from_le_bytes` on (the first four bytes of) a buffer. -/
def u32fromLeList (b : Bytes) : Nat :=
  b.getD 0 0 + 256 * b.getD 1 0 + 65536 * b.getD 2 0 + 16777216 * b.getD 3 0

/-- Rust range slicing `data[i..j]`: the sub-buffer when the bounds are in
range, and an out-of-bounds panic otherwise. -/
def sliceFrom (data : Bytes) (i j : Nat) : Except PErr Bytes :=
  if i ≤ j ∧ j ≤ data.length then .ok ((data.drop i).take (j - i))
  else .error .outOfBounds

/-- First 8 bytes of SHA-256 of `"spl_keyring_program:keystore_entry"`, the
`SplDiscriminate`-derived discriminator of `KeystoreEntry`. -/
def entryDiscriminator : Bytes := [22, 52, 242, 31, 193, 53, 26, 243]

/-- First 8 bytes of SHA-256 of
`"spl_keyring_program:keystore_entry:configuration"`, the
`SplDiscriminate`-derived discriminator of `KeystoreEntryConfig`. -/
def configurationDiscriminator : Bytes := [152, 237, 14, 242, 40, 241, 192, 210]

/-- Key-value entry for additional encryption algorithm configurations. -/
structure KeystoreEntryConfigEntry where
  key : Bytes
  value_length : Nat
  value : Bytes
deriving DecidableEq, Repr

/-- Length of a `KeystoreEntryConfigEntry`. -/
def KeystoreEntryConfigEntry.data_len (c : KeystoreEntryConfigEntry) : Nat :=
  12 + c.value_length

/-- Packs a `KeystoreEntryConfigEntry` into bytes. -/
def KeystoreEntryConfigEntry.pack (c : KeystoreEntryConfigEntry) : Bytes :=
  c.key ++ u32leBytes c.value_length ++ c.value

/-- Unpacks bytes into a `KeystoreEntryConfigEntry` and the number of bytes
consumed. The value slice `data[12..config_entry_end]` is unchecked in the
source and panics when the declared length exceeds the remaining bytes. -/
def KeystoreEntryConfigEntry.unpack (data : Bytes) :
    Except PErr (KeystoreEntryConfigEntry × Nat) :=
  if data.length < 12 then .error .invalidFormatForConfigEntry
  else
    let key := data.take 8
    let value_length := u32fromLeList ((data.drop 8).take 4)
    let config_entry_end := value_length + 12
    match sliceFrom data 12 config_entry_end with
    | .error e => .error e
    | .ok value => .ok (⟨key, value_length, value⟩, config_entry_end)

/-- Iteratively unpacks config entries until no data is left
(`unpack_to_vec`). The fuel argument only bounds the iteration count; since
every successful `unpack` consumes at least 12 bytes, fuel equal to the
buffer length is never exhausted. -/
def KeystoreEntryConfigEntry.unpackToVecGo :
    Nat → Bytes → Except PErr (List KeystoreEntryConfigEntry)
  | _, [] => .ok []
  | 0, _ :: _ => .error .outOfBounds
  | fuel + 1, b :: rest =>
    match KeystoreEntryConfigEntry.unpack (b :: rest) with
    | .error e => .error e
    | .ok (config_entry, config_entry_end) =>
      match KeystoreEntryConfigEntry.unpackToVecGo fuel
          ((b :: rest).drop config_entry_end) with
      | .error e => .error e
      | .ok config_vec => .ok (config_entry :: config_vec)

/-- Unpacks bytes into a list of `KeystoreEntryConfigEntry`. -/
def KeystoreEntryConfigEntry.unpack_to_vec (data : Bytes) :
    Except PErr (List KeystoreEntryConfigEntry) :=
  KeystoreEntryConfigEntry.unpackToVecGo data.length data

/-- Configurations section in a keystore entry (the `KeystoreEntryConfig`
tuple struct; `entries` is its field `.0`). -/
structure KeystoreEntryConfig where
  entries : List KeystoreEntryConfigEntry
deriving DecidableEq, Repr

/-- Length of a `KeystoreEntryConfig`: 12 header bytes plus the lengths of
the config entries. -/
def KeystoreEntryConfig.data_len (c : KeystoreEntryConfig) : Nat :=
  12 + (c.entries.map KeystoreEntryConfigEntry.data_len).sum

/-- Packs a `KeystoreEntryConfig` into bytes. Note the source emits only the
concatenated config entries: no discriminator and no length header. -/
def KeystoreEntryConfig.pack (c : KeystoreEntryConfig) : Bytes :=
  (c.entries.map KeystoreEntryConfigEntry.pack).flatten

/-- Unpacks bytes into an optional `KeystoreEntryConfig`. Indexing `data[0]`
panics on an empty buffer, exactly as in the source. -/
def KeystoreEntryConfig.unpack (data : Bytes) :
    Except PErr (Option KeystoreEntryConfig) :=
  match data with
  | [] => .error .outOfBounds
  | b0 :: rest =>
    if b0 = 0 then .ok none
    else if b0 ≠ 0 ∧ (b0 :: rest).length < 12 then .error .invalidFormatForConfig
    else if (b0 :: rest).take 8 ≠ configurationDiscriminator then
      .error .invalidFormatForConfig
    else
      let config_end := u32fromLeList (((b0 :: rest).drop 8).take 4) + 12
      if config_end ≠ (b0 :: rest).length then .error .invalidFormatForConfig
      else
        match KeystoreEntryConfigEntry.unpack_to_vec ((b0 :: rest).drop 12) with
        | .error e => .error e
        | .ok config_vec => .ok (some ⟨config_vec⟩)

/-- Key section in a keystore entry. -/
structure KeystoreEntryKey where
  discriminator : Bytes
  key_length : Nat
  key : Bytes
deriving DecidableEq, Repr

/-- Length of a `KeystoreEntryKey`. -/
def KeystoreEntryKey.data_len (k : KeystoreEntryKey) : Nat :=
  12 + k.key.length

/-- Packs a `KeystoreEntryKey` into bytes. -/
def KeystoreEntryKey.pack (k : KeystoreEntryKey) : Bytes :=
  k.discriminator ++ u32leBytes k.key_length ++ k.key

/-- Unpacks bytes into a `KeystoreEntryKey` and the number of bytes
consumed. The key slice `data[12..key_end]` is unchecked in the source and
panics when the declared length exceeds the remaining bytes. -/
def KeystoreEntryKey.unpack (data : Bytes) :
    Except PErr (KeystoreEntryKey × Nat) :=
  if data.length < 12 then .error .invalidFormatForKey
  else
    let discriminator := data.take 8
    let key_length := u32fromLeList ((data.drop 8).take 4)
    let key_end := key_length + 12
    match sliceFrom data 12 key_end with
    | .error e => .error e
    | .ok key => .ok (⟨discriminator, key_length, key⟩, key_end)

/-- A keystore entry. -/
structure KeystoreEntry where
  key : KeystoreEntryKey
  config : Option KeystoreEntryConfig
deriving DecidableEq, Repr

/-- Packs a `KeystoreEntry` into bytes: entry discriminator, entry length as
`u32` little-endian (`key_end + config.data_len()` with a config,
`key_end + 1` without), the packed key, then the packed config or a single
zero byte. -/
def KeystoreEntry.pack (e : KeystoreEntry) : Bytes :=
  match e.config with
  | some config =>
    entryDiscriminator ++ u32leBytes (12 + e.key.key_length + config.data_len)
      ++ e.key.pack ++ config.pack
  | none =>
    entryDiscriminator ++ u32leBytes (12 + e.key.key_length + 1)
      ++ e.key.pack ++ [0]

/-- Unpacks bytes into a `KeystoreEntry` and the number of bytes consumed
(the declared entry length plus 12). The slice `&data[key_end..]` in the
source cannot go out of bounds here because a successful key unpack
guarantees `key_end ≤ data.length`, so it is rendered as `drop`. -/
def KeystoreEntry.unpack (data : Bytes) :
    Except PErr (KeystoreEntry × Nat) :=
  if data.length < 12 then .error .invalidFormatForEntry
  else if data.take 8 ≠ entryDiscriminator then .error .invalidFormatForEntry
  else
    let entry_length := u32fromLeList ((data.drop 8).take 4)
    let entry_end := entry_length + 12
    match KeystoreEntryKey.unpack (data.drop 12) with
    | .error e => .error e
    | .ok (key, key_data_length) =>
      let key_end := key_data_length + 12
      match KeystoreEntryConfig.unpack (data.drop key_end) with
      | .error e => .error e
      | .ok config => .ok (⟨key, config⟩, entry_end)

/-- Struct for managing a TLV structure of keystore entries
(`src/program/src/state.rs`). -/
structure Keystore where
  entries : List KeystoreEntry
deriving DecidableEq, Repr

/-- Packs a `Keystore` into bytes: the source loop extends an accumulator
with each packed entry in order. -/
def Keystore.pack (g : Keystore) : Bytes :=
  g.entries.foldl (fun data entry => data ++ entry.pack) []

/-- Iteratively unpacks keystore entries until no data is left. The step
`data = &data[entry_end..]` panics when the declared `entry_end` exceeds the
buffer length (the source never checks it), modelled by `sliceFrom`. The
fuel argument only bounds the iteration count; since every successful entry
unpack reports at least 12 consumed bytes, fuel equal to the buffer length
is never exhausted. -/
def Keystore.unpackGo : Nat → Bytes → Except PErr Keystore
  | _, [] => .ok ⟨[]⟩
  | 0, _ :: _ => .error .outOfBounds
  | fuel + 1, b :: rest =>
    match KeystoreEntry.unpack (b :: rest) with
    | .error e => .error e
    | .ok (entry, entry_end) =>
      match sliceFrom (b :: rest) entry_end (b :: rest).length with
      | .error e => .error e
      | .ok remaining =>
        match Keystore.unpackGo fuel remaining with
        | .error e => .error e
        | .ok g => .ok ⟨entry :: g.entries⟩

/-- Unpacks bytes into a `Keystore`. -/
def Keystore.unpack (data : Bytes) : Except PErr Keystore :=
  Keystore.unpackGo data.length data

/-- Adds a new keystore entry. The keystore account is modelled by its data
buffer `keystore_data` (`data_is_empty` is emptiness of that buffer), and a
successful `realloc_and_serialize` by returning the new buffer. -/
def Keystore.add_entry (keystore_data new_entry_data : Bytes) :
    Except PErr Bytes :=
  match KeystoreEntry.unpack new_entry_data with
  | .error e => .error e
  | .ok (new_entry, entry_end) =>
    if entry_end ≠ new_entry_data.length then .error .invalidFormatForEntry
    else if keystore_data = [] then .ok new_entry_data
    else
      match Keystore.unpack keystore_data with
      | .error e => .error e
      | .ok keystore => .ok (Keystore.pack ⟨keystore.entries ++ [new_entry]⟩)

/-- Removes a keystore entry. Same account modelling as `add_entry`; the
`retain` keeps exactly the entries different from the decoded target. -/
def Keystore.remove_entry (keystore_data remove_entry_data : Bytes) :
    Except PErr Bytes :=
  match KeystoreEntry.unpack remove_entry_data with
  | .error e => .error e
  | .ok (remove_entry, entry_end) =>
    if entry_end ≠ remove_entry_data.length then .error .invalidFormatForEntry
    else if keystore_data = [] then .error .keystoreEntryNotFound
    else
      match Keystore.unpack keystore_data with
      | .error e => .error e
      | .ok keystore =>
        .ok (Keystore.pack ⟨keystore.entries.filter (fun entry => entry ≠ remove_entry)⟩)

/-- Concrete algorithm discriminator used in test fixtures (mirrors the
`[2; 8]` Curve25519 discriminator of the source tests). -/
def keyDisc2 : Bytes := [2, 2, 2, 2, 2, 2, 2, 2]

/-- A concrete key section with an empty key payload. -/
def key0 : KeystoreEntryKey := ⟨keyDisc2, 0, []⟩

/-- A concrete record with no configuration section. -/
def rec0 : KeystoreEntry := ⟨key0, none⟩

/-- The canonical 25-byte encoding of `rec0`. -/
def enc0 : Bytes := KeystoreEntry.pack rec0

/-- A concrete record (different key discriminator) with no configuration. -/
def rec3 : KeystoreEntry := ⟨⟨[3, 3, 3, 3, 3, 3, 3, 3], 0, []⟩, none⟩

/-- The canonical 25-byte encoding of `rec3`. -/
def enc3 : Bytes := KeystoreEntry.pack rec3

/-- A concrete record (yet another key discriminator), no configuration. -/
def rec4 : KeystoreEntry := ⟨⟨[4, 4, 4, 4, 4, 4, 4, 4], 0, []⟩, none⟩

/-- The canonical 25-byte encoding of `rec4`. -/
def enc4 : Bytes := KeystoreEntry.pack rec4

/-- A 26-byte buffer that decodes as a one-record registry `[rec0]` but is
not canonical: the declared entry length is 14, covering the key TLV, the
zero sentinel, and one extra ignored byte. -/
def buf26 : Bytes :=
  entryDiscriminator ++ u32leBytes 14 ++ KeystoreEntryKey.pack key0 ++ [0, 0]

/-- A record whose configuration section holds one entry with empty value. -/
def recC : KeystoreEntry :=
  ⟨key0, some ⟨[⟨[1, 1, 1, 1, 1, 1, 1, 1], 0, []⟩]⟩⟩

/-- A configuration section with exactly one entry with empty value. -/
def cfg1 : KeystoreEntryConfig := ⟨[⟨[1, 1, 1, 1, 1, 1, 1, 1], 0, []⟩]⟩

/-- A truncated buffer: 8-byte tag, a length field declaring 50 bytes, but
only 10 bytes following. -/
def trunc22 : Bytes := keyDisc2 ++ u32leBytes 50 ++ List.replicate 10 0

/-- A malformed record buffer: valid entry discriminator and length field,
but only one byte of entry data (too short for a key TLV). -/
def bad13 : Bytes := entryDiscriminator ++ u32leBytes 1 ++ [0]

/-- A successful slice has in-range bounds and is the expected sub-buffer. -/
theorem sliceFrom_ok {data : Bytes} {i j : Nat} {v : Bytes}
    (h : sliceFrom data i j = .ok v) :
    i ≤ j ∧ j ≤ data.length ∧ v = (data.drop i).take (j - i) := by
  unfold sliceFrom at h
  split at h
  · next hc => injection h with h; exact ⟨hc.1, hc.2, h.symm⟩
  · simp at h

/-- A failed slice fails only with the out-of-bounds panic. -/
theorem sliceFrom_error {data : Bytes} {i j : Nat} {e : PErr}
    (h : sliceFrom data i j = .error e) : e = .outOfBounds := by
  unfold sliceFrom at h
  split at h
  · simp at h
  · injection h with h
    exact h.symm

/-- Config entry unpacking never reports `keystoreEntryNotFound`. -/
theorem configEntryUnpack_ne_notFound (data : Bytes) :
    KeystoreEntryConfigEntry.unpack data ≠ .error .keystoreEntryNotFound := by
  intro h
  unfold KeystoreEntryConfigEntry.unpack at h
  split at h
  · simp at h
  · simp only [] at h
    split at h
    · next e he =>
      injection h with h
      subst h
      simpa using sliceFrom_error he
    · simp at h

/-- The config entry list loop never reports `keystoreEntryNotFound`. -/
theorem KeystoreEntryConfigEntry.unpackToVecGo_ne_notFound :
    ∀ (fuel : Nat) (data : Bytes),
      KeystoreEntryConfigEntry.unpackToVecGo fuel data
        ≠ .error .keystoreEntryNotFound := by
  intro fuel
  induction fuel with
  | zero =>
    intro data
    cases data <;> simp [KeystoreEntryConfigEntry.unpackToVecGo]
  | succ n ih =>
    intro data
    cases data with
    | nil => simp [KeystoreEntryConfigEntry.unpackToVecGo]
    | cons b rest =>
      intro h
      simp only [KeystoreEntryConfigEntry.unpackToVecGo] at h
      split at h
      · next e he =>
        injection h with h
        subst h
        exact configEntryUnpack_ne_notFound _ he
      · split at h
        · next e he =>
          injection h with h
          subst h
          exact ih _ he
        · simp at h

/-- Config section unpacking never reports `keystoreEntryNotFound`. -/
theorem configUnpack_ne_notFound (data : Bytes) :
    KeystoreEntryConfig.unpack data ≠ .error .keystoreEntryNotFound := by
  intro h
  cases data with
  | nil => simp [KeystoreEntryConfig.unpack] at h
  | cons b rest =>
    simp only [KeystoreEntryConfig.unpack] at h
    split at h
    · simp at h
    · split at h
      · simp at h
      · split at h
        · simp at h
        · split at h
          · simp at h
          · split at h
            · next e he =>
              injection h with h
              subst h
              exact KeystoreEntryConfigEntry.unpackToVecGo_ne_notFound _ _ he
            · simp at h

/-- Key unpacking never reports `keystoreEntryNotFound`. -/
theorem keyUnpack_ne_notFound (data : Bytes) :
    KeystoreEntryKey.unpack data ≠ .error .keystoreEntryNotFound := by
  intro h
  unfold KeystoreEntryKey.unpack at h
  split at h
  · simp at h
  · simp only [] at h
    split at h
    · next e he =>
      injection h with h
      subst h
      simpa using sliceFrom_error he
    · simp at h

/-- Entry unpacking never reports `keystoreEntryNotFound`. -/
theorem entryUnpack_ne_notFound (data : Bytes) :
    KeystoreEntry.unpack data ≠ .error .keystoreEntryNotFound := by
  intro h
  unfold KeystoreEntry.unpack at h
  split at h
  · simp at h
  · split at h
    · simp at h
    · split at h
      · next e he =>
        injection h with h
        subst h
        exact keyUnpack_ne_notFound _ he
      · simp only [] at h
        split at h
        · next e he =>
          injection h with h
          subst h
          exact configUnpack_ne_notFound _ he
        · simp at h

/-- The keystore unpacking loop never reports `keystoreEntryNotFound`. -/
theorem Keystore.unpackGo_ne_notFound :
    ∀ (fuel : Nat) (data : Bytes),
      Keystore.unpackGo fuel data ≠ .error .keystoreEntryNotFound := by
  intro fuel
  induction fuel with
  | zero =>
    intro data
    cases data <;> simp [Keystore.unpackGo]
  | succ n ih =>
    intro data
    cases data with
    | nil => simp [Keystore.unpackGo]
    | cons b rest =>
      intro h
      simp only [Keystore.unpackGo] at h
      split at h
      · next e he =>
        injection h with h
        subst h
        exact entryUnpack_ne_notFound _ he
      · split at h
        · next e he =>
          injection h with h
          subst h
          simpa using sliceFrom_error he
        · split at h
          · next e he =>
            injection h with h
            subst h
            exact ih _ he
          · simp at h

/-- Keystore unpacking never reports `keystoreEntryNotFound`. -/
theorem keystoreUnpack_ne_notFound (data : Bytes) :
    Keystore.unpack data ≠ .error .keystoreEntryNotFound :=
  Keystore.unpackGo_ne_notFound data.length data

/-- The pack loop is append-accumulation over the packed entries. -/
theorem Keystore.foldl_pack (l : List KeystoreEntry) (init : Bytes) :
    l.foldl (fun data entry => data ++ entry.pack) init
      = init ++ (l.map KeystoreEntry.pack).flatten := by
  induction l generalizing init with
  | nil => simp
  | cons e l ih => simp [ih, List.append_assoc]

/-- Packing a keystore is the flat concatenation of its packed entries. -/
theorem Keystore.pack_eq_flatten (g : Keystore) :
    Keystore.pack g = (g.entries.map KeystoreEntry.pack).flatten := by
  unfold Keystore.pack
  simpa using Keystore.foldl_pack g.entries []

/-- Packing distributes over appending entry lists. -/
theorem Keystore.pack_append (l₁ l₂ : List KeystoreEntry) :
    Keystore.pack ⟨l₁ ++ l₂⟩ = Keystore.pack ⟨l₁⟩ ++ Keystore.pack ⟨l₂⟩ := by
  simp [Keystore.pack_eq_flatten]

/-- Removing against an empty slot with a fully-consumed well-formed target
reports `keystoreEntryNotFound`. -/
theorem Keystore.remove_entry_empty (target : Bytes) (rec : KeystoreEntry)
    (hu : KeystoreEntry.unpack target = .ok (rec, target.length)) :
    Keystore.remove_entry [] target = .error .keystoreEntryNotFound := by
  unfold Keystore.remove_entry
  rw [hu]
  simp

/-- Removing a fully-consumed well-formed target from a non-empty decodable
buffer re-encodes the registry with all structurally equal entries
dropped. -/
theorem Keystore.remove_entry_eq (buf target : Bytes) (rec : KeystoreEntry)
    (g : Keystore)
    (hu : KeystoreEntry.unpack target = .ok (rec, target.length))
    (hb : buf ≠ []) (hg : Keystore.unpack buf = .ok g) :
    Keystore.remove_entry buf target
      = .ok (Keystore.pack
          ⟨g.entries.filter (fun entry => entry ≠ rec)⟩) := by
  unfold Keystore.remove_entry
  rw [hu]
  simp [hb, hg]

/-- C1: the record/registry round-trip fails for records with a present
configuration section. Decoding the encoding of `recC` (config with one
entry) returns the config format error instead of `recC`, both at the record
level and at the registry level; with a present-but-empty config the decode
even hits an out-of-bounds index. The cause is that
`KeystoreEntryConfig.pack` omits the 12-byte section header its own
`unpack` requires. -/
theorem roundtrip_fails_for_config_record :
    KeystoreEntry.unpack (KeystoreEntry.pack recC)
        = .error .invalidFormatForConfig
    ∧ Keystore.unpack (Keystore.pack ⟨[recC]⟩)
        = .error .invalidFormatForConfig
    ∧ KeystoreEntry.unpack (KeystoreEntry.pack ⟨key0, some ⟨[]⟩⟩)
        = .error .outOfBounds
    ∧ KeystoreEntry.unpack (KeystoreEntry.pack rec0) = .ok (rec0, 25) := by
  exact ⟨by decide, by decide, by decide, by decide⟩

/-- C2: `KeystoreEntryConfig.pack` does not emit the claimed layout. On the
one-entry section `cfg1` it produces only the 12 bytes of the concatenated
entries, which differ from the claimed
`discriminator ++ total_len ++ entries` layout; the 12 header bytes counted
by `data_len` are missing from the output. -/
theorem config_pack_omits_header :
    KeystoreEntryConfig.pack cfg1 = [1, 1, 1, 1, 1, 1, 1, 1, 0, 0, 0, 0]
    ∧ KeystoreEntryConfig.pack cfg1
        ≠ configurationDiscriminator
          ++ u32leBytes ((cfg1.entries.map KeystoreEntryConfigEntry.data_len).sum)
          ++ (cfg1.entries.map KeystoreEntryConfigEntry.pack).flatten
    ∧ (KeystoreEntryConfig.pack cfg1).length + 12 = cfg1.data_len := by
  exact ⟨by decide, by decide, by decide⟩

/-- C3: decoders are not panic-free. On a buffer whose 4-byte length field
declares 50 bytes while only 10 bytes follow the 12-byte header, both the
key decoder and the config entry decoder perform the out-of-bounds slice
`data[12..62]` (a Rust panic), instead of returning a structured
malformed-format error. -/
theorem truncated_unpack_out_of_bounds :
    KeystoreEntryKey.unpack trunc22 = .error .outOfBounds
    ∧ KeystoreEntryConfigEntry.unpack trunc22 = .error .outOfBounds
    ∧ trunc22.length = 22
    ∧ u32fromLeList ((trunc22.drop 8).take 4) = 50 := by
  exact ⟨by decide, by decide, by decide, by decide⟩

/-- C4: a record with no configuration packs with exactly one trailing zero
byte after its key TLV; the configuration decoder returns "no
configuration" exactly when the first remaining byte is zero; and a
present-but-empty configuration section on the wire (full 12-byte header
with length 0) decodes to `some` empty section, distinct from `none`. -/
theorem sentinel_and_empty_config_distinction :
    (∀ e : KeystoreEntry, e.config = none →
      KeystoreEntry.pack e
        = entryDiscriminator ++ u32leBytes (12 + e.key.key_length + 1)
            ++ KeystoreEntryKey.pack e.key ++ [0])
    ∧ (∀ (b : Nat) (rest : Bytes),
        KeystoreEntryConfig.unpack (b :: rest) = .ok none ↔ b = 0)
    ∧ KeystoreEntryConfig.unpack (configurationDiscriminator ++ u32leBytes 0)
        = .ok (some ⟨[]⟩) := by
  refine ⟨?_, ?_, by decide⟩
  · intro e he
    simp [KeystoreEntry.pack, he]
  · intro b rest
    constructor
    · intro h
      by_contra hb
      simp only [KeystoreEntryConfig.unpack] at h
      rw [if_neg hb] at h
      split at h
      · simp at h
      · split at h
        · simp at h
        · split at h
          · simp at h
          · split at h
            · simp at h
            · simp at h
    · intro hb
      subst hb
      simp [KeystoreEntryConfig.unpack]

/-- C4 witness: the concrete record `rec0` (no config) packs with the
trailing zero, and the single-byte buffer `[0]` decodes as "no
configuration". -/
theorem sentinel_and_empty_config_distinction_witness :
    KeystoreEntry.pack rec0
      = entryDiscriminator ++ u32leBytes (12 + rec0.key.key_length + 1)
          ++ KeystoreEntryKey.pack rec0.key ++ [0]
    ∧ KeystoreEntryConfig.unpack [0] = .ok none :=
  ⟨sentinel_and_empty_config_distinction.1 rec0 rfl,
   (sentinel_and_empty_config_distinction.2.1 0 []).mpr rfl⟩

/-- C5 counterexample: `buf26` decodes as the registry `[rec0]` but carries
an extra ignored byte inside its declared entry length. Adding the canonical
encoding of `rec0` to it succeeds and produces 50 bytes, not
`len(buf) + len(encode(rec)) = 51`; and adding `buf26` itself to an empty
slot stores 26 bytes, not `len(encode(rec0)) = 25`. -/
theorem add_length_claim_counterexample :
    KeystoreEntry.unpack enc0 = .ok (rec0, enc0.length)
    ∧ buf26 ≠ []
    ∧ Keystore.unpack buf26 = .ok ⟨[rec0]⟩
    ∧ Keystore.add_entry buf26 enc0 = .ok (Keystore.pack ⟨[rec0, rec0]⟩)
    ∧ (Keystore.pack ⟨[rec0, rec0]⟩).length = 50
    ∧ buf26.length + (KeystoreEntry.pack rec0).length = 51
    ∧ KeystoreEntry.unpack buf26 = .ok (rec0, buf26.length)
    ∧ Keystore.add_entry [] buf26 = .ok buf26
    ∧ buf26.length = 26
    ∧ (KeystoreEntry.pack rec0).length = 25 := by
  exact ⟨by decide, by decide, by decide, by decide, by decide, by decide,
    by decide, by decide, by decide, by decide⟩

/-- C5 (amended): when the submitted bytes decode fully to `rec`, a
successful Add on an empty slot stores exactly the submitted bytes, and on a
non-empty decodable slot stores the re-encoding of the decoded registry
followed by `encode(rec)` — so the new length is
`len(encode(decode(buf))) + len(encode(rec))`, which equals
`len(buf) + len(encode(rec))` exactly when `buf` re-encodes to itself. -/
theorem add_entry_result_length (buf data : Bytes) (rec : KeystoreEntry)
    (g : Keystore)
    (hu : KeystoreEntry.unpack data = .ok (rec, data.length)) :
    (buf = [] → Keystore.add_entry buf data = .ok data)
    ∧ (buf ≠ [] → Keystore.unpack buf = .ok g →
        Keystore.add_entry buf data
          = .ok (Keystore.pack g ++ KeystoreEntry.pack rec)) := by
  unfold Keystore.add_entry
  rw [hu]
  constructor
  · intro hb
    simp [hb]
  · intro hb hg
    simp only [hb, hg]
    have hp : Keystore.pack ⟨g.entries ++ [rec]⟩
        = Keystore.pack g ++ KeystoreEntry.pack rec := by
      rw [Keystore.pack_append g.entries [rec]]
      rfl
    simp [hp]

/-- C5 witness: adding the canonical `enc3` to the canonical one-record
buffer `enc0` appends exactly the 25 encoded bytes. -/
theorem add_entry_result_length_witness :
    Keystore.add_entry enc0 enc3
      = .ok (Keystore.pack ⟨[rec0]⟩ ++ KeystoreEntry.pack rec3) :=
  (add_entry_result_length enc0 enc3 rec3 ⟨[rec0]⟩ (by decide)).2
    (by decide) (by decide)

/-- C6: whenever the submitted record bytes decode to a record that does not
consume the whole input, both Add and Remove fail with the entry format
error (for every slot buffer, so no write to the slot can occur). -/
theorem trailing_bytes_rejected (buf data : Bytes) (e : KeystoreEntry)
    (n : Nat) (hu : KeystoreEntry.unpack data = .ok (e, n))
    (hn : n ≠ data.length) :
    Keystore.add_entry buf data = .error .invalidFormatForEntry
    ∧ Keystore.remove_entry buf data = .error .invalidFormatForEntry := by
  unfold Keystore.add_entry Keystore.remove_entry
  rw [hu]
  simp [hn]

/-- C6 witness: a canonical record encoding with one extra trailing byte is
rejected by both Add and Remove. -/
theorem trailing_bytes_rejected_witness :
    Keystore.add_entry [] (enc0 ++ [0]) = .error .invalidFormatForEntry
    ∧ Keystore.remove_entry [] (enc0 ++ [0])
        = .error .invalidFormatForEntry :=
  trailing_bytes_rejected [] (enc0 ++ [0]) rec0 25 (by decide) (by decide)

/-- C7: with a fully-consumed well-formed target, Remove on an empty slot
fails with "entry not found", and on a non-empty decodable slot succeeds,
re-encoding the registry with every entry structurally equal to the target
dropped (zero, one, or many) — a zero-match removal is not an error. -/
theorem remove_entry_semantics (buf target : Bytes) (rec : KeystoreEntry)
    (g : Keystore)
    (hu : KeystoreEntry.unpack target = .ok (rec, target.length)) :
    Keystore.remove_entry [] target = .error .keystoreEntryNotFound
    ∧ (buf ≠ [] → Keystore.unpack buf = .ok g →
        Keystore.remove_entry buf target
          = .ok (Keystore.pack
              ⟨g.entries.filter (fun entry => entry ≠ rec)⟩)) :=
  ⟨Keystore.remove_entry_empty target rec hu,
   fun hb hg => Keystore.remove_entry_eq buf target rec g hu hb hg⟩

/-- C7 witness: removing the absent `rec3` from the one-record buffer `enc0`
is a successful no-match removal, and removing it from an empty slot is
"entry not found". -/
theorem remove_entry_semantics_witness :
    Keystore.remove_entry [] enc3 = .error .keystoreEntryNotFound
    ∧ Keystore.remove_entry enc0 enc3 = .ok (Keystore.pack ⟨[rec0]⟩) := by
  have h := remove_entry_semantics enc0 enc3 rec3 ⟨[rec0]⟩ (by decide)
  exact ⟨h.1, (h.2 (by decide) (by decide)).trans (by decide)⟩

/-- C8 counterexample: `buf26` decodes as `[rec0]` and the well-formed
target `enc3` matches none of its records, yet a successful Remove rewrites
the slot to the 25-byte re-encoding `enc0`, which is not byte-identical to
`buf26`. -/
theorem remove_absent_counterexample :
    KeystoreEntry.unpack enc3 = .ok (rec3, enc3.length)
    ∧ buf26 ≠ []
    ∧ Keystore.unpack buf26 = .ok ⟨[rec0]⟩
    ∧ rec3 ∉ [rec0]
    ∧ Keystore.remove_entry buf26 enc3 = .ok enc0
    ∧ enc0 ≠ buf26 := by
  exact ⟨by decide, by decide, by decide, by decide, by decide, by decide⟩

/-- C8 (amended): removing an absent well-formed target from a non-empty
decodable buffer stores the re-encoding of the decoded registry; this is
byte-identical to the original buffer whenever the buffer re-encodes to
itself (canonical buffers). -/
theorem remove_absent_reencodes (buf target : Bytes) (rec : KeystoreEntry)
    (g : Keystore)
    (hu : KeystoreEntry.unpack target = .ok (rec, target.length))
    (hb : buf ≠ []) (hg : Keystore.unpack buf = .ok g)
    (habs : rec ∉ g.entries) (hcanon : Keystore.pack g = buf) :
    Keystore.remove_entry buf target = .ok buf := by
  rw [Keystore.remove_entry_eq buf target rec g hu hb hg]
  have hf : g.entries.filter (fun entry => entry ≠ rec) = g.entries := by
    refine List.filter_eq_self.mpr ?_
    intro a ha
    have hne : a ≠ rec := fun he => habs (he ▸ ha)
    simpa using hne
  rw [hf]
  exact congrArg Except.ok hcanon

/-- C8 witness: removing the absent `rec4` from the canonical one-record
buffer `enc0` leaves the buffer byte-identical. -/
theorem remove_absent_reencodes_witness :
    Keystore.remove_entry enc0 enc4 = .ok enc0 :=
  remove_absent_reencodes enc0 enc4 rec4 ⟨[rec0]⟩ (by decide) (by decide)
    (by decide) (by decide) (by decide)

/-- C9: the encoding of a registry is exactly the concatenation of the
encodings of its records in order with no outer header, the two-record
concatenation law holds, and the empty registry encodes to the empty byte
sequence. -/
theorem registry_concatenation_law :
    (∀ g : Keystore,
      Keystore.pack g = (g.entries.map KeystoreEntry.pack).flatten)
    ∧ (∀ a b : KeystoreEntry,
        Keystore.pack ⟨[a, b]⟩ = Keystore.pack ⟨[a]⟩ ++ Keystore.pack ⟨[b]⟩)
    ∧ Keystore.pack ⟨[]⟩ = [] := by
  refine ⟨Keystore.pack_eq_flatten, ?_, rfl⟩
  intro a b
  simpa using Keystore.pack_append [a] [b]

/-- C10 counterexample: on the malformed target `bad13` (valid record
discriminator and length field, but an entry body too short for a key TLV),
Remove against an empty slot fails with the key format error, not with the
entry format error the claim names (and not with "entry not found"). -/
theorem remove_malformed_error_counterexample :
    Keystore.remove_entry [] bad13 = .error .invalidFormatForKey
    ∧ PErr.invalidFormatForKey ≠ PErr.invalidFormatForEntry
    ∧ PErr.invalidFormatForKey ≠ PErr.keystoreEntryNotFound := by
  exact ⟨by decide, by decide, by decide⟩

/-- C10 (amended): Remove validates the target before looking at the slot:
any decode error of the target propagates unchanged (so it is some format or
out-of-bounds error, never "entry not found"), and the "entry not found"
error is only reachable when the slot is empty and the target decoded
successfully consuming all its bytes. -/
theorem remove_validates_before_empty_check (buf target : Bytes) :
    (∀ e : PErr, KeystoreEntry.unpack target = .error e →
      Keystore.remove_entry buf target = .error e)
    ∧ (Keystore.remove_entry buf target = .error .keystoreEntryNotFound →
        buf = []
        ∧ ∃ rec, KeystoreEntry.unpack target = .ok (rec, target.length)) := by
  constructor
  · intro e he
    unfold Keystore.remove_entry
    rw [he]
  · intro h
    unfold Keystore.remove_entry at h
    split at h
    · next e he =>
      injection h with h
      subst h
      exact absurd he (entryUnpack_ne_notFound _)
    · next rec n hu =>
      split at h
      · simp at h
      · next hn =>
        split at h
        · next hb =>
          refine ⟨hb, rec, ?_⟩
          rwa [of_not_not hn] at hu
        · split at h
          · next e he =>
            injection h with h
            subst h
            exact absurd he (keystoreUnpack_ne_notFound _)
          · simp at h

/-- C10 witness: removing the well-formed canonical `enc4` from an empty
slot reaches "entry not found", and the amended theorem recovers that the
target fully decoded. -/
theorem remove_validates_before_empty_check_witness :
    ([] : Bytes) = []
    ∧ ∃ rec, KeystoreEntry.unpack enc4 = .ok (rec, enc4.length) :=
  (remove_validates_before_empty_check [] enc4).2 (by decide)

end Keyring
